import Mathlib

/-!
Verification development for the memcached connection I/O loop and
expiration sweeper (src/memcached/internal/memcached.c).

The C source is shallowly embedded: the external collaborators
(socket reads, the pluggable protocol handler, the storage backend)
are modelled as explicit scripts/oracles consumed by the embedded
control flow, so every definition is executable and every branch of
the C control flow has a counterpart here.
-/

/- ============================================================
   Input buffer (struct ibuf of the small library, as used here).
   `rpos`/`wpos` are the read/write cursors; ibuf_used = wpos - rpos.
   ============================================================ -/

structure Ibuf where
  rpos : Nat
  wpos : Nat
deriving DecidableEq, Repr

def ibuf_used (b : Ibuf) : Nat := b.wpos - b.rpos

/- ============================================================
   memcached_skip_request (memcached.c lines 47-63).

   while (ibuf_used(in) < con->len && con->noprocess) {
     con->len -= ibuf_used(in);
     ibuf_reset(in);
     read = mnet_read_ibuf(con->fd, in, 1);
     if (read < 1) return -1;
     stat.bytes_read += read;
   }
   in->rpos += con->len;

   `reads` scripts the successive mnet_read_ibuf return values; an
   exhausted script behaves like a read of 0 (EOF), which is < 1.
   skipGo returns (remaining len, buffer before the final rpos
   advance, bytes_read accumulated), or none for the -1 return.
   ============================================================ -/

def skipGo (noprocess : Bool) : Nat → Ibuf → Nat → List Int → Option (Nat × Ibuf × Nat)
  | len, buf, acc, reads =>
    if ibuf_used buf < len ∧ noprocess = true then
      match reads with
      | [] => none
      | r :: rs =>
        if r < 1 then none
        else skipGo noprocess (len - ibuf_used buf) ⟨0, r.toNat⟩ (acc + r.toNat) rs
    else
      some (len, buf, acc)

structure SkipOut where
  buf : Ibuf
  bytesRead : Nat
deriving DecidableEq, Repr

def memcached_skip_request (noprocess : Bool) (len : Nat) (buf : Ibuf)
    (reads : List Int) : Option SkipOut :=
  match skipGo noprocess len buf 0 reads with
  | none => none
  | some (l, b, acc) => some ⟨⟨b.rpos + l, b.wpos⟩, acc⟩

/- ============================================================
   Statistics counters (struct memcached_stat, the fields touched
   by this file).
   ============================================================ -/

structure Stat where
  curr_conns : Nat
  total_conns : Nat
  bytes_read : Nat
  bytes_written : Nat
  evictions : Nat
deriving DecidableEq, Repr

def addBR (st : Stat) (n : Nat) : Stat := { st with bytes_read := st.bytes_read + n }

def addBW (st : Stat) (n : Nat) : Stat := { st with bytes_written := st.bytes_written + n }

/- ============================================================
   memcached_loop_read (memcached.c lines 79-94): returns -1 when the
   buffer reservation fails or the read delivers fewer than to_read
   bytes, otherwise 0.
   ============================================================ -/

def memcached_loop_read_rc (reserveOk : Bool) (readRet : Int) (to_read : Nat) : Int :=
  if reserveOk = false then -1
  else if readRet < (to_read : Int) then -1
  else 0

/- ============================================================
   memcached_loop (memcached.c lines 114-171), as a trace-producing
   function.  External behaviour is scripted:
     * reads   : one entry per memcached_loop_read call; none means the
                 call returned -1 (short read / OOM), some n means
                 success delivering n bytes (added to bytes_read).
     * cycles  : one entry per parse_request invocation (label next:),
                 recording the parse return code, the flag values the
                 handler left behind, the process_request return code,
                 the bytes ibuf_used reports at the batching check, and
                 the outcome of the memcached_skip_request call
                 (success flag plus bytes it read).
     * fl      : one entry per memcached_flush call: the byte count the
                 vectored write reports (added to bytes_written).
   Script exhaustion defaults: a missing read fails; a missing cycle
   parses as a fatal framing error (parse -1 with close_connection),
   closing the connection; a missing flush writes 0 bytes.
   The trace records reads, processed requests, drain failures and
   flushes, so the batching/flushing structure of the loop is
   observable.
   ============================================================ -/

inductive Ev where
  | readOk
  | readFail
  | req
  | skipFail
  | flush
deriving DecidableEq, Repr

structure CycleIn where
  parseRc : Int
  noreply : Bool
  noprocess : Bool
  processRc : Int
  closeConn : Bool
  ibufUsedAfter : Nat
  skipOk : Bool
  skipBytes : Nat
deriving Repr

def defaultCycle : CycleIn :=
  { parseRc := -1, noreply := false, noprocess := false, processRc := 0,
    closeConn := true, ibufUsedAfter := 0, skipOk := true, skipBytes := 0 }

def consSkip (ok : Bool) (l : List Ev) : List Ev :=
  if ok then l else Ev.skipFail :: l

/- rc = 0; if (!con->noprocess) rc = con->cb.process_request(con);
   (memcached.c lines 150-151). -/
def processRcEff (c : CycleIn) : Int :=
  if c.noprocess then 0 else c.processRc

def memcached_loop_go (B : Nat) :
    Nat → Nat → Bool → List (Option Nat) → List CycleIn → List Nat → Stat →
    List Ev × Stat
  | 0, _, _, _, _, _, st => ([], st)
  | fuel + 1, batch, atNext, reads, cycles, fl, st =>
    if atNext = false then
      match reads.headD none with
      | none => ([Ev.readFail, Ev.flush], addBW st (fl.headD 0))
      | some n =>
        let r := memcached_loop_go B fuel batch true reads.tail cycles fl (addBR st n)
        (Ev.readOk :: r.1, r.2)
    else
      let c := cycles.headD defaultCycle
      let cs := cycles.tail
      if c.parseRc < 0 then
        let st1 := addBR st c.skipBytes
        if c.closeConn then
          (consSkip c.skipOk [Ev.flush], addBW st1 (fl.headD 0))
        else
          let r := memcached_loop_go B fuel batch false reads cs fl.tail
                     (addBW st1 (fl.headD 0))
          (consSkip c.skipOk (Ev.flush :: r.1), r.2)
      else if c.parseRc > 0 then
        memcached_loop_go B fuel batch false reads cs fl st
      else
        let st1 := addBR st c.skipBytes
        if c.closeConn then
          (Ev.req :: consSkip c.skipOk [Ev.flush], addBW st1 (fl.headD 0))
        else if processRcEff c = 0 ∧ 0 < c.ibufUsedAfter ∧ batch < B then
          let r := memcached_loop_go B fuel (batch + 1) true reads cs fl st1
          (Ev.req :: consSkip c.skipOk r.1, r.2)
        else if c.noreply then
          let r := memcached_loop_go B fuel 0 false reads cs fl st1
          (Ev.req :: consSkip c.skipOk r.1, r.2)
        else
          let r := memcached_loop_go B fuel 0 false reads cs fl.tail
                     (addBW st1 (fl.headD 0))
          (Ev.req :: consSkip c.skipOk (Ev.flush :: r.1), r.2)

def memcached_loop (B fuel : Nat) (reads : List (Option Nat)) (cycles : List CycleIn)
    (fl : List Nat) (st : Stat) : List Ev × Stat :=
  memcached_loop_go B fuel 0 false reads cycles fl st

/- ============================================================
   memcached_handler (memcached.c lines 173-197): increments
   curr_conns and total_conns, runs the loop, decrements curr_conns.
   ============================================================ -/

def memcached_handler (B fuel : Nat) (reads : List (Option Nat)) (cycles : List CycleIn)
    (fl : List Nat) (st : Stat) : Stat :=
  let st1 := { st with curr_conns := st.curr_conns + 1,
                       total_conns := st.total_conns + 1 }
  let st2 := (memcached_loop B fuel reads cycles fl st1).2
  { st2 with curr_conns := st2.curr_conns - 1 }

/- checkSegs cap rem evs = true iff every maximal run of .req events
   between two consecutive .flush events in evs has length at most the
   running allowance (rem for the first segment, cap afterwards). -/
def chkSegs (cap : Nat) (rem : Nat) : List Ev → Bool
  | [] => true
  | Ev.req :: t => decide (rem ≠ 0) && chkSegs cap (rem - 1) t
  | Ev.flush :: t => chkSegs cap cap t
  | _ :: t => chkSegs cap rem t

/- checkAfterRF evs = true iff a .readFail event, when present, is
   followed by exactly one final .flush and nothing else. -/
def checkAfterRF : List Ev → Bool
  | [] => true
  | Ev.readFail :: t => t == [Ev.flush]
  | _ :: t => checkAfterRF t

/- ============================================================
   memcached_expire_process (memcached.c lines 199-239).

   The keyspace is a list of tuples (key plus the result of
   is_expired_tuple); the open iterator is the list of entries it has
   not yet yielded; a transaction is a working copy of the committed
   space that box_delete mutates and box_txn_commit publishes, while
   box_txn_rollback discards it.  Backend failures are injected by
   boolean scripts, one entry consumed per box_iterator_next /
   box_txn_alloc / box_delete call (exhausted scripts mean success).
   ============================================================ -/

structure Tup where
  key : Nat
  expired : Bool
deriving DecidableEq, Repr

def eraseKey (k : Nat) : List Tup → List Tup
  | [] => []
  | t :: ts => if t.key = k then ts else t :: eraseKey k ts

structure ExpResult where
  rc : Int
  space : List Tup
  evictions : Nat
  iter : Option (List Tup)
deriving DecidableEq, Repr

def expireGo (committed : List Tup) :
    Nat → List Tup → List Tup → Nat → List Bool → List Bool → List Bool → ExpResult
  | 0, iter, txn, ev, _, _, _ =>
    { rc := 0, space := txn, evictions := ev, iter := some iter }
  | count + 1, iter, txn, ev, itF, alF, dlF =>
    if itF.headD false then
      { rc := -1, space := committed, evictions := ev, iter := some iter }
    else
      match iter with
      | [] => { rc := 0, space := txn, evictions := ev, iter := none }
      | t :: rest =>
        if t.expired then
          if alF.headD false then
            { rc := -1, space := committed, evictions := ev, iter := some rest }
          else if dlF.headD false then
            { rc := -1, space := committed, evictions := ev, iter := some rest }
          else
            expireGo committed count rest (eraseKey t.key txn) (ev + 1)
              itF.tail alF.tail dlF.tail
        else
          expireGo committed count rest txn ev itF.tail alF dlF

def memcached_expire_process (expire_count : Nat) (space : List Tup) (ev : Nat)
    (iter : List Tup) (itF alF dlF : List Bool) : ExpResult :=
  expireGo space expire_count iter space ev itF alF dlF

/- ============================================================
   memcached_expire_loop restart logic (memcached.c lines 241-276),
   without the pacing sleep: when the cursor handle is NULL a fresh
   full-keyspace iterator over the current committed space is opened,
   then one memcached_expire_process pass runs; rv = -1 ends the loop.
   The failure scripts are empty here (the multipass claims concern
   the failure-free runs).
   ============================================================ -/

structure LoopState where
  space : List Tup
  evictions : Nat
  iter : Option (List Tup)
deriving DecidableEq, Repr

def expire_pass (expire_count : Nat) (s : LoopState) : LoopState × Int :=
  let it := s.iter.getD s.space
  let r := memcached_expire_process expire_count s.space s.evictions it [] [] []
  ({ space := r.space, evictions := r.evictions, iter := r.iter }, r.rc)

def expire_passes (expire_count : Nat) : LoopState → Nat → LoopState
  | s, 0 => s
  | s, n + 1 =>
    let p := expire_pass expire_count s
    if p.2 = -1 then p.1 else expire_passes expire_count p.1 n

/- ============================================================
   Sweep pacing (memcached.c lines 262-265):
     double delay = ((double)p->expire_count * p->expire_time) /
                    (box_index_len(p->space_id, 0) + 1);
     if (delay > 1) delay = 1;
   modelled over the exact rationals.
   ============================================================ -/

def memcached_expire_delay (expire_count expire_time keyspace : Nat) : ℚ :=
  let d : ℚ := ((expire_count : ℚ) * (expire_time : ℚ)) / ((keyspace : ℚ) + 1)
  if d > 1 then 1 else d

/- ============================================================
   memcached_loop_error (memcached.c lines 96-112).  The connection
   flags are passed through untouched (the C function never writes
   them); the chosen reporting action is returned alongside the 0
   return value.  memcached_error_SERVER_ERROR is not part of this
   source file; the serverError action below is modelled from the
   spec: it formats the backend's error message into a generic
   server-error response.
   ============================================================ -/

structure ConnFlags where
  close_connection : Bool
  noreply : Bool
  noprocess : Bool
deriving DecidableEq, Repr

inductive ErrAction where
  | noop
  | processError (code : Int) (msg : String)
  | serverError (code : Int) (msg : String)
deriving DecidableEq, Repr

def memcached_loop_error (box_error_code_MAX : Int) (flags : ConnFlags)
    (last : Option (Int × String)) : Int × ConnFlags × ErrAction :=
  match last with
  | none => (0, flags, ErrAction.noop)
  | some (errcode, errstr) =>
    if errcode > box_error_code_MAX then
      (0, flags, ErrAction.processError (errcode - box_error_code_MAX) errstr)
    else
      (0, flags, ErrAction.serverError errcode errstr)

/- ============================================================
   memcached_set_opt (memcached.c lines 359-405).  The returned Bool
   records whether the "No such option" error was logged.  The
   verbosity case reproduces the source faithfully: the dead
   `else if (flag > 3)` branch, and the missing break that lets the
   case fall through into default.
   ============================================================ -/

inductive McOpt where
  | readahead
  | expire_enabled
  | expire_count
  | expire_time
  | flush_enabled
  | verbosity
  | unknown (n : Int)
deriving DecidableEq, Repr

structure Srv where
  readahead : Int
  expire_enabled : Bool
  expire_count : Int
  expire_time : Int
  flush_enabled : Bool
  verbosity : Int
  expire_stopped : Bool
deriving DecidableEq, Repr

def memcached_set_opt (srv : Srv) (opt : McOpt) (flag : Int) : Srv × Bool :=
  match opt with
  | McOpt.readahead => ({ srv with readahead := flag }, false)
  | McOpt.expire_enabled =>
    if flag = 0 then
      ({ srv with expire_enabled := false, expire_stopped := true }, false)
    else
      ({ srv with expire_enabled := true }, false)
  | McOpt.expire_count => ({ srv with expire_count := flag }, false)
  | McOpt.expire_time => ({ srv with expire_time := flag }, false)
  | McOpt.flush_enabled =>
    if flag = 0 then ({ srv with flush_enabled := false }, false)
    else ({ srv with flush_enabled := true }, false)
  | McOpt.verbosity =>
    let srv' :=
      if flag > 0 then { srv with verbosity := if flag < 4 then flag else 3 }
      else if flag > 3 then { srv with verbosity := 0 }
      else srv
    (srv', true)
  | McOpt.unknown _ => (srv, true)

/- ============================================================
   Concrete instances used by witnesses and counterexamples.
   ============================================================ -/

def st0 : Stat := ⟨0, 0, 0, 0, 0⟩

/- A complete request whose processing succeeds, with one more
   buffered byte left over at the batching check. -/
def cReqMore : CycleIn :=
  { parseRc := 0, noreply := false, noprocess := false, processRc := 0,
    closeConn := false, ibufUsedAfter := 1, skipOk := true, skipBytes := 0 }

/- A complete request whose processing succeeds, with an empty input
   buffer at the batching check. -/
def cReqDone : CycleIn :=
  { parseRc := 0, noreply := false, noprocess := false, processRc := 0,
    closeConn := false, ibufUsedAfter := 0, skipOk := true, skipBytes := 0 }

/- A parse error without close_connection whose drain read fails. -/
def cParseErrDrainFail : CycleIn :=
  { parseRc := -1, noreply := false, noprocess := false, processRc := 0,
    closeConn := false, ibufUsedAfter := 0, skipOk := false, skipBytes := 0 }

/- The service defaults set by memcached_create (lines 318-326). -/
def srvDefaults : Srv :=
  { readahead := 16384, expire_enabled := true, expire_count := 50,
    expire_time := 3600, flush_enabled := false, verbosity := 0,
    expire_stopped := false }

/- ============================================================
   Theorems.
   ============================================================ -/

/-- Claim C4: the sweeper's inter-pass delay equals
(expire_count x expire_time) / (keyspace_size + 1) clamped to at most
1 time unit; as a function of keyspace size it is monotonically
non-increasing and never exceeds 1. -/
theorem mc_C4_pacing :
    ∀ K T S S1 S2 : Nat,
      memcached_expire_delay K T S = min (((K : ℚ) * T) / ((S : ℚ) + 1)) 1 ∧
      memcached_expire_delay K T S ≤ 1 ∧
      (S1 ≤ S2 → memcached_expire_delay K T S2 ≤ memcached_expire_delay K T S1) := by
  have hmin : ∀ K T S : Nat,
      memcached_expire_delay K T S = min (((K : ℚ) * T) / ((S : ℚ) + 1)) 1 := by
    intro K T S
    simp only [memcached_expire_delay]
    by_cases h : ((K : ℚ) * T) / ((S : ℚ) + 1) > 1
    · simp [h, min_eq_right h.le]
    · simp [h, min_eq_left (not_lt.mp h)]
  intro K T S S1 S2
  refine ⟨hmin K T S, ?_, ?_⟩
  · rw [hmin]
    exact min_le_right _ _
  · intro h
    rw [hmin, hmin]
    refine min_le_min ?_ le_rfl
    have h1 : (0 : ℚ) < (S1 : ℚ) + 1 := by positivity
    have h2 : ((S1 : ℚ) + 1) ≤ ((S2 : ℚ) + 1) := by
      have : (S1 : ℚ) ≤ (S2 : ℚ) := by exact_mod_cast h
      linarith
    have h0 : (0 : ℚ) ≤ (K : ℚ) * T := by positivity
    exact div_le_div_of_nonneg_left h0 h1 h2

/-- Witness for mc_C4_pacing at expire_count 50, expire_time 3600,
keyspace sizes 100 and 200000. -/
theorem mc_C4_pacing_witness :
    memcached_expire_delay 50 3600 200000 ≤ memcached_expire_delay 50 3600 100 ∧
    memcached_expire_delay 50 3600 100 ≤ 1 :=
  ⟨(mc_C4_pacing 50 3600 0 100 200000).2.2 (by decide),
   (mc_C4_pacing 50 3600 100 0 0).2.1⟩

/-- Claim C7: memcached_loop_error returns 0 and leaves the connection
flags (in particular close_connection) untouched; it delegates to the
protocol handler's process_error with the code reduced by
box_error_code_MAX exactly when the code exceeds box_error_code_MAX,
and otherwise formats a generic server-error response from the
backend's message. -/
theorem mc_C7_error_report :
    ∀ (bm : Int) (flags : ConnFlags) (code : Int) (msg : String),
      memcached_loop_error bm flags none = (0, flags, ErrAction.noop) ∧
      (memcached_loop_error bm flags (some (code, msg))).1 = 0 ∧
      (memcached_loop_error bm flags (some (code, msg))).2.1 = flags ∧
      (code > bm →
        (memcached_loop_error bm flags (some (code, msg))).2.2 =
          ErrAction.processError (code - bm) msg) ∧
      (¬ code > bm →
        (memcached_loop_error bm flags (some (code, msg))).2.2 =
          ErrAction.serverError code msg) := by
  intro bm flags code msg
  refine ⟨rfl, ?_, ?_, ?_, ?_⟩ <;>
    simp only [memcached_loop_error] <;>
    by_cases h : code > bm <;>
    simp [h]

/-- Witness for mc_C7_error_report with box_error_code_MAX = 10:
code 15 is delegated as protocol error 5, code 3 becomes a generic
server error; the flags come back unchanged. -/
theorem mc_C7_error_report_witness :
    (memcached_loop_error 10 ⟨false, false, false⟩ (some (15, "err"))).2.2 =
      ErrAction.processError 5 "err" ∧
    (memcached_loop_error 10 ⟨false, false, false⟩ (some (3, "err"))).2.2 =
      ErrAction.serverError 3 "err" ∧
    (memcached_loop_error 10 ⟨false, false, false⟩ (some (15, "err"))).2.1 =
      ⟨false, false, false⟩ :=
  ⟨(mc_C7_error_report 10 ⟨false, false, false⟩ 15 "err").2.2.2.1 (by decide),
   (mc_C7_error_report 10 ⟨false, false, false⟩ 3 "err").2.2.2.2 (by decide),
   (mc_C7_error_report 10 ⟨false, false, false⟩ 15 "err").2.2.1⟩

/-- Claim C8: evaluating memcached_set_opt at the recognized verbosity
option shows the code falling through into the default case (the
"No such option" report fires, second component true) even though the
option takes effect, and a non-positive flag leaves a previously-set
verbosity unchanged instead of clamping it to 0; a recognized option
with a break (readahead) is not reported. -/
theorem mc_C8_verbosity_bug :
    (memcached_set_opt srvDefaults McOpt.verbosity 2).2 = true ∧
    (memcached_set_opt srvDefaults McOpt.verbosity 2).1.verbosity = 2 ∧
    (memcached_set_opt srvDefaults McOpt.verbosity 7).1.verbosity = 3 ∧
    (memcached_set_opt { srvDefaults with verbosity := 2 }
        McOpt.verbosity (-1)).1.verbosity = 2 ∧
    (memcached_set_opt srvDefaults McOpt.readahead 4096).2 = false ∧
    (memcached_set_opt srvDefaults (McOpt.unknown 99) 0).2 = true := by
  decide

theorem expireGo_rc_cases :
    ∀ (committed : List Tup) (count : Nat) (iter txn : List Tup) (ev : Nat)
      (itF alF dlF : List Bool),
      (expireGo committed count iter txn ev itF alF dlF).rc = 0 ∨
      ((expireGo committed count iter txn ev itF alF dlF).rc = -1 ∧
       (expireGo committed count iter txn ev itF alF dlF).space = committed) := by
  intro committed count
  induction count with
  | zero =>
    intro iter txn ev itF alF dlF
    left
    rfl
  | succ c ih =>
    intro iter txn ev itF alF dlF
    by_cases h1 : itF.head?.getD false = true
    · simp [expireGo, h1]
    · cases iter with
      | nil => simp [expireGo, h1]
      | cons t rest =>
        by_cases h2 : t.expired
        · by_cases h3 : alF.head?.getD false = true
          · simp [expireGo, h1, h2, h3]
          · by_cases h4 : dlF.head?.getD false = true
            · simp [expireGo, h1, h2, h3, h4]
            · have := ih rest (eraseKey t.key txn) (ev + 1) itF.tail alF.tail dlF.tail
              simpa [expireGo, h1, h2, h3, h4] using this
        · have := ih rest txn ev itF.tail alF dlF
          simpa [expireGo, h1, h2] using this

/-- Claim C5: every failing outcome of memcached_expire_process rolls
the transaction back, leaving the committed keyspace exactly as it
was; and a failing iterator step, key-buffer allocation, or delete at
the start of the pass makes the pass return failure. -/
theorem mc_C5_rollback :
    (∀ (K : Nat) (space : List Tup) (ev : Nat) (iter : List Tup)
       (itF alF dlF : List Bool),
      (memcached_expire_process K space ev iter itF alF dlF).rc = 0 ∨
      ((memcached_expire_process K space ev iter itF alF dlF).rc = -1 ∧
       (memcached_expire_process K space ev iter itF alF dlF).space = space)) ∧
    (∀ (K : Nat) (space : List Tup) (ev : Nat) (iter : List Tup), 1 ≤ K →
      (memcached_expire_process K space ev iter [true] [] []).rc = -1 ∧
      (memcached_expire_process K space ev iter [true] [] []).space = space) ∧
    (∀ (K : Nat) (space : List Tup) (ev : Nat) (t : Tup) (rest : List Tup),
      1 ≤ K → t.expired = true →
      (memcached_expire_process K space ev (t :: rest) [] [true] []).rc = -1 ∧
      (memcached_expire_process K space ev (t :: rest) [] [true] []).space = space) ∧
    (∀ (K : Nat) (space : List Tup) (ev : Nat) (t : Tup) (rest : List Tup),
      1 ≤ K → t.expired = true →
      (memcached_expire_process K space ev (t :: rest) [] [] [true]).rc = -1 ∧
      (memcached_expire_process K space ev (t :: rest) [] [] [true]).space = space) := by
  refine ⟨?_, ?_, ?_, ?_⟩
  · intro K space ev iter itF alF dlF
    exact expireGo_rc_cases space K iter space ev itF alF dlF
  · intro K space ev iter hK
    cases K with
    | zero => omega
    | succ c => simp [memcached_expire_process, expireGo]
  · intro K space ev t rest hK ht
    cases K with
    | zero => omega
    | succ c => simp [memcached_expire_process, expireGo, ht]
  · intro K space ev t rest hK ht
    cases K with
    | zero => omega
    | succ c => simp [memcached_expire_process, expireGo, ht]

/-- Witness for mc_C5_rollback: a pass over a two-entry keyspace whose
delete fails returns -1 and leaves the keyspace unchanged. -/
theorem mc_C5_rollback_witness :
    (memcached_expire_process 50 [⟨1, true⟩, ⟨2, true⟩] 0 [⟨1, true⟩, ⟨2, true⟩]
        [] [] [true]).rc = -1 ∧
    (memcached_expire_process 50 [⟨1, true⟩, ⟨2, true⟩] 0 [⟨1, true⟩, ⟨2, true⟩]
        [] [] [true]).space = [⟨1, true⟩, ⟨2, true⟩] ∧
    (memcached_expire_process 50 [⟨1, true⟩, ⟨2, true⟩] 0 [⟨1, true⟩, ⟨2, true⟩]
        [true] [] []).rc = -1 :=
  ⟨(mc_C5_rollback.2.2.2 50 [⟨1, true⟩, ⟨2, true⟩] 0 ⟨1, true⟩ [⟨2, true⟩]
      (by decide) (by decide)).1,
   (mc_C5_rollback.2.2.2 50 [⟨1, true⟩, ⟨2, true⟩] 0 ⟨1, true⟩ [⟨2, true⟩]
      (by decide) (by decide)).2,
   (mc_C5_rollback.2.1 50 [⟨1, true⟩, ⟨2, true⟩] 0 [⟨1, true⟩, ⟨2, true⟩]
      (by decide)).1⟩

theorem expireGo_rollback_evictions :
    ∀ (pre : List Tup) (c : Nat) (txn : List Tup) (ev : Nat)
      (committed : List Tup) (t : Tup) (rest : List Tup),
      (∀ u ∈ pre, u.expired = true) → t.expired = true → pre.length < c →
      expireGo committed c (pre ++ t :: rest) txn ev [] []
          (List.replicate pre.length false ++ [true]) =
        { rc := -1, space := committed, evictions := ev + pre.length,
          iter := some rest } := by
  intro pre
  induction pre with
  | nil =>
    intro c txn ev committed t rest hpre ht hlen
    cases c with
    | zero => omega
    | succ c' => simp [expireGo, ht]
  | cons u us ih =>
    intro c txn ev committed t rest hpre ht hlen
    cases c with
    | zero => omega
    | succ c' =>
      have hu : u.expired = true := hpre u (by simp)
      simp only [expireGo]
      simp only [List.headD_nil, if_false, Bool.false_eq_true, List.cons_append,
        List.length_cons, List.replicate_succ, List.cons_append, List.headD_cons,
        hu, if_true, List.tail_nil, List.tail_cons]
      rw [ih c' (eraseKey u.key txn) (ev + 1) committed t rest
        (fun v hv => hpre v (List.mem_cons_of_mem u hv)) ht (by
          simp only [List.length_cons] at hlen
          omega)]
      have : ev + 1 + us.length = ev + (us.length + 1) := by omega
      rw [this]

/-- Claim C10: when a delete fails after k deletes in the batch have
already succeeded, memcached_expire_process returns failure and the
rolled-back keyspace is unchanged (no entry was actually deleted), yet
the eviction counter keeps the k increments. -/
theorem mc_C10_evictions_on_rollback :
    ∀ (pre : List Tup) (t : Tup) (rest : List Tup) (ev K : Nat),
      (∀ u ∈ pre, u.expired = true) → t.expired = true → pre.length < K →
      memcached_expire_process K (pre ++ t :: rest) ev (pre ++ t :: rest) [] []
          (List.replicate pre.length false ++ [true]) =
        { rc := -1, space := pre ++ t :: rest, evictions := ev + pre.length,
          iter := some rest } := by
  intro pre t rest ev K hpre ht hK
  exact expireGo_rollback_evictions pre K (pre ++ t :: rest) ev (pre ++ t :: rest)
    t rest hpre ht hK

/-- Witness for mc_C10_evictions_on_rollback: two deletes succeed, the
third fails; the pass reports failure with the keyspace intact but the
eviction counter advanced by 2. -/
theorem mc_C10_evictions_on_rollback_witness :
    memcached_expire_process 50 [⟨0, true⟩, ⟨1, true⟩, ⟨2, true⟩] 0
        [⟨0, true⟩, ⟨1, true⟩, ⟨2, true⟩] [] []
        (List.replicate 2 false ++ [true]) =
      { rc := -1, space := [⟨0, true⟩, ⟨1, true⟩, ⟨2, true⟩], evictions := 2,
        iter := some [] } :=
  mc_C10_evictions_on_rollback [⟨0, true⟩, ⟨1, true⟩] ⟨2, true⟩ [] 0 50
    (by decide) (by decide) (by decide)

theorem eraseKey_length_ge (k : Nat) :
    ∀ l : List Tup, l.length ≤ (eraseKey k l).length + 1 := by
  intro l
  induction l with
  | nil => simp [eraseKey]
  | cons t ts ih =>
    by_cases h : t.key = k
    · simp [eraseKey, h]
    · simp only [eraseKey, h, if_false, List.length_cons]
      omega

theorem expireGo_evictions_le :
    ∀ (committed : List Tup) (count : Nat) (iter txn : List Tup) (ev : Nat)
      (itF alF dlF : List Bool),
      (expireGo committed count iter txn ev itF alF dlF).evictions ≤ ev + count := by
  intro committed count
  induction count with
  | zero =>
    intro iter txn ev itF alF dlF
    simp [expireGo]
  | succ c ih =>
    intro iter txn ev itF alF dlF
    by_cases h1 : itF.head?.getD false = true
    · simp [expireGo, h1]
    · cases iter with
      | nil => simp [expireGo, h1]
      | cons t rest =>
        by_cases h2 : t.expired
        · by_cases h3 : alF.head?.getD false = true
          · simp [expireGo, h1, h2, h3]
          · by_cases h4 : dlF.head?.getD false = true
            · simp [expireGo, h1, h2, h3, h4]
            · have := ih rest (eraseKey t.key txn) (ev + 1) itF.tail alF.tail dlF.tail
              simp only [expireGo, List.headD_eq_head?_getD, h1, h2, h3, h4]
              simp only [if_true, if_false, Bool.false_eq_true]
              omega
        · have := ih rest txn ev itF.tail alF dlF
          simp only [expireGo, List.headD_eq_head?_getD, h1, h2]
          simp only [if_true, if_false, Bool.false_eq_true]
          omega

theorem expireGo_space_length :
    ∀ (committed : List Tup) (count : Nat) (iter txn : List Tup) (ev : Nat)
      (itF alF dlF : List Bool),
      txn.length ≤ (expireGo committed count iter txn ev itF alF dlF).space.length + count ∨
      (expireGo committed count iter txn ev itF alF dlF).space = committed := by
  intro committed count
  induction count with
  | zero =>
    intro iter txn ev itF alF dlF
    left
    simp [expireGo]
  | succ c ih =>
    intro iter txn ev itF alF dlF
    by_cases h1 : itF.head?.getD false = true
    · right
      simp [expireGo, h1]
    · cases iter with
      | nil =>
        left
        simp [expireGo, h1]
      | cons t rest =>
        by_cases h2 : t.expired
        · by_cases h3 : alF.head?.getD false = true
          · right
            simp [expireGo, h1, h2, h3]
          · by_cases h4 : dlF.head?.getD false = true
            · right
              simp [expireGo, h1, h2, h3, h4]
            · have her := eraseKey_length_ge t.key txn
              have := ih rest (eraseKey t.key txn) (ev + 1) itF.tail alF.tail dlF.tail
              simp only [expireGo, List.headD_eq_head?_getD, h1, h2, h3, h4]
              simp only [if_true, if_false, Bool.false_eq_true]
              rcases this with h | h
              · left
                omega
              · right
                exact h
        · have := ih rest txn ev itF.tail alF dlF
          simp only [expireGo, List.headD_eq_head?_getD, h1, h2]
          simp only [if_true, if_false, Bool.false_eq_true]
          rcases this with h | h
          · left
            omega
          · right
            exact h

theorem expireGo_iter_adv :
    ∀ (committed : List Tup) (count : Nat) (iter txn : List Tup) (ev : Nat)
      (itF alF dlF : List Bool),
      match (expireGo committed count iter txn ev itF alF dlF).iter with
      | some l2 => iter.length ≤ l2.length + count
      | none => iter.length ≤ count := by
  intro committed count
  induction count with
  | zero =>
    intro iter txn ev itF alF dlF
    simp [expireGo]
  | succ c ih =>
    intro iter txn ev itF alF dlF
    by_cases h1 : itF.head?.getD false = true
    · simp [expireGo, h1]
    · cases iter with
      | nil => simp [expireGo, h1]
      | cons t rest =>
        by_cases h2 : t.expired
        · by_cases h3 : alF.head?.getD false = true
          · simp [expireGo, h1, h2, h3]
          · by_cases h4 : dlF.head?.getD false = true
            · simp [expireGo, h1, h2, h3, h4]
            · have := ih rest (eraseKey t.key txn) (ev + 1) itF.tail alF.tail dlF.tail
              simp only [expireGo, List.headD_eq_head?_getD, h1, h2, h3, h4]
              simp only [if_true, if_false, Bool.false_eq_true]
              revert this
              cases (expireGo committed c rest (eraseKey t.key txn) (ev + 1)
                  itF.tail alF.tail dlF.tail).iter with
              | none =>
                intro this
                simp only [List.length_cons]
                omega
              | some l2 =>
                intro this
                simp only [List.length_cons]
                omega
        · have := ih rest txn ev itF.tail alF dlF
          simp only [expireGo, List.headD_eq_head?_getD, h1, h2]
          simp only [if_true, if_false, Bool.false_eq_true]
          revert this
          cases (expireGo committed c rest txn ev itF.tail alF dlF).iter with
          | none =>
            intro this
            simp only [List.length_cons]
            omega
          | some l2 =>
            intro this
            simp only [List.length_cons]
            omega

theorem expireGo_noFail_rc :
    ∀ (committed : List Tup) (count : Nat) (iter txn : List Tup) (ev : Nat),
      (expireGo committed count iter txn ev [] [] []).rc = 0 := by
  intro committed count
  induction count with
  | zero =>
    intro iter txn ev
    simp [expireGo]
  | succ c ih =>
    intro iter txn ev
    cases iter with
    | nil => simp [expireGo]
    | cons t rest =>
      by_cases h2 : t.expired
      · simpa [expireGo, h2] using ih rest (eraseKey t.key txn) (ev + 1)
      · simpa [expireGo, h2] using ih rest txn ev

theorem expireGo_exhaust :
    ∀ (committed : List Tup) (count : Nat) (iter txn : List Tup) (ev : Nat),
      iter.length < count →
      (expireGo committed count iter txn ev [] [] []).iter = none := by
  intro committed count
  induction count with
  | zero =>
    intro iter txn ev h
    omega
  | succ c ih =>
    intro iter txn ev h
    cases iter with
    | nil => simp [expireGo]
    | cons t rest =>
      simp only [List.length_cons] at h
      by_cases h2 : t.expired
      · simpa [expireGo, h2] using ih rest (eraseKey t.key txn) (ev + 1) (by omega)
      · simpa [expireGo, h2] using ih rest txn ev (by omega)

theorem eraseKey_cons_self (t : Tup) (rest : List Tup) :
    eraseKey t.key (t :: rest) = rest := by
  simp [eraseKey]

theorem expireGo_all_expired :
    ∀ (count : Nat) (l : List Tup) (ev : Nat) (committed : List Tup),
      (∀ t ∈ l, t.expired = true) →
      expireGo committed count l l ev [] [] [] =
        { rc := 0, space := l.drop count, evictions := ev + min l.length count,
          iter := if l.length < count then none else some (l.drop count) } := by
  intro count
  induction count with
  | zero =>
    intro l ev committed hl
    simp [expireGo]
  | succ c ih =>
    intro l ev committed hl
    cases l with
    | nil => simp [expireGo]
    | cons t rest =>
      have ht : t.expired = true := hl t (by simp)
      have hrest : ∀ u ∈ rest, u.expired = true :=
        fun u hu => hl u (List.mem_cons_of_mem t hu)
      simp only [expireGo, List.headD_nil, if_false, Bool.false_eq_true, ht, if_true,
        List.tail_nil, eraseKey_cons_self]
      rw [ih rest (ev + 1) committed hrest]
      simp only [List.drop_succ_cons, List.length_cons]
      by_cases hc : rest.length < c
      · simp only [hc, if_true, show rest.length + 1 < c + 1 by omega, ExpResult.mk.injEq]
        refine ⟨trivial, trivial, by omega, trivial⟩
      · simp only [hc, if_false, show ¬ rest.length + 1 < c + 1 by omega, ExpResult.mk.injEq]
        refine ⟨trivial, trivial, by omega, trivial⟩

theorem expire_pass_inv :
    ∀ (K : Nat) (l : List Tup) (ev : Nat) (it : Option (List Tup)),
      (∀ t ∈ l, t.expired = true) → (it = none ∨ it = some l) →
      expire_pass K ⟨l, ev, it⟩ =
        (⟨l.drop K, ev + min l.length K,
          if l.length < K then none else some (l.drop K)⟩, 0) := by
  intro K l ev it hl hit
  have hgetD : (Option.getD it l) = l := by
    rcases hit with h | h <;> simp [h]
  simp only [expire_pass, memcached_expire_process, hgetD]
  rw [expireGo_all_expired K l ev l hl]

theorem expire_passes_inv :
    ∀ (n K : Nat) (l : List Tup) (ev : Nat) (it : Option (List Tup)),
      (∀ t ∈ l, t.expired = true) → (it = none ∨ it = some l) →
      (expire_passes K ⟨l, ev, it⟩ n).space = l.drop (n * K) := by
  intro n
  induction n with
  | zero =>
    intro K l ev it hl hit
    simp [expire_passes]
  | succ n ih =>
    intro K l ev it hl hit
    rw [expire_passes, expire_pass_inv K l ev it hl hit]
    simp only [show ((0 : Int) = -1) = False by simp, if_false]
    have hdrop : ∀ u ∈ l.drop K, u.expired = true :=
      fun u hu => hl u (List.mem_of_mem_drop hu)
    by_cases hlen : l.length < K
    · simp only [hlen, if_true]
      rw [ih K (l.drop K) (ev + min l.length K) none hdrop (Or.inl rfl)]
      rw [List.drop_drop]
      congr 1
      ring
    · simp only [hlen, if_false]
      rw [ih K (l.drop K) (ev + min l.length K) (some (l.drop K)) hdrop (Or.inr rfl)]
      rw [List.drop_drop]
      congr 1
      ring

theorem ceil_mul_ge (S K : Nat) (hK : 1 ≤ K) : S ≤ (S + K - 1) / K * K := by
  have h1 := Nat.div_add_mod (S + K - 1) K
  have h2 := Nat.mod_lt (S + K - 1) (show 0 < K by omega)
  rw [Nat.mul_comm]
  generalize hq : (S + K - 1) / K = q at h1 ⊢
  generalize hr : (S + K - 1) % K = r at h1 h2
  generalize hx : K * q = x at h1 ⊢
  omega

/-- Claim C3: a sweep pass iterates at most expire_count entries and
deletes at most expire_count entries; when the cursor is exhausted
within the budget the pass returns success with the cursor handle
cleared; a failure-free pass always ends in a commit (returns 0); and
a keyspace of S expired entries is emptied within
ceil(S / expire_count) passes of the sweep loop. -/
theorem mc_C3_sweep_bounded :
    (∀ (K : Nat) (space : List Tup) (ev : Nat) (iter : List Tup)
       (itF alF dlF : List Bool),
      (memcached_expire_process K space ev iter itF alF dlF).evictions ≤ ev + K ∧
      space.length ≤
        (memcached_expire_process K space ev iter itF alF dlF).space.length + K ∧
      (match (memcached_expire_process K space ev iter itF alF dlF).iter with
       | some l2 => iter.length ≤ l2.length + K
       | none => iter.length ≤ K)) ∧
    (∀ (K : Nat) (space : List Tup) (ev : Nat) (iter : List Tup),
      iter.length < K →
      (memcached_expire_process K space ev iter [] [] []).rc = 0 ∧
      (memcached_expire_process K space ev iter [] [] []).iter = none) ∧
    (∀ (K : Nat) (space : List Tup) (ev : Nat) (iter : List Tup),
      (memcached_expire_process K space ev iter [] [] []).rc = 0) ∧
    (∀ (K : Nat) (l : List Tup) (ev : Nat) (it : Option (List Tup)),
      1 ≤ K → (∀ t ∈ l, t.expired = true) → (it = none ∨ it = some l) →
      (expire_passes K ⟨l, ev, it⟩ ((l.length + K - 1) / K)).space = []) := by
  refine ⟨?_, ?_, ?_, ?_⟩
  · intro K space ev iter itF alF dlF
    refine ⟨expireGo_evictions_le space K iter space ev itF alF dlF, ?_, ?_⟩
    · rcases expireGo_space_length space K iter space ev itF alF dlF with h | h
      · exact h
      · unfold memcached_expire_process
        rw [h]
        omega
    · exact expireGo_iter_adv space K iter space ev itF alF dlF
  · intro K space ev iter h
    exact ⟨expireGo_noFail_rc space K iter space ev,
           expireGo_exhaust space K iter space ev h⟩
  · intro K space ev iter
    exact expireGo_noFail_rc space K iter space ev
  · intro K l ev it hK hl hit
    rw [expire_passes_inv ((l.length + K - 1) / K) K l ev it hl hit]
    have := ceil_mul_ge l.length K hK
    exact List.drop_eq_nil_of_le this

/-- Witness for mc_C3_sweep_bounded: with expire_count 50 a
three-entry cursor is exhausted in one pass (success, cursor
cleared), and with expire_count 2 a keyspace of three expired entries
is emptied in ceil(3/2) = 2 passes. -/
theorem mc_C3_sweep_bounded_witness :
    (memcached_expire_process 50 [⟨1, true⟩, ⟨2, false⟩] 0 [⟨1, true⟩, ⟨2, false⟩]
        [] [] []).rc = 0 ∧
    (memcached_expire_process 50 [⟨1, true⟩, ⟨2, false⟩] 0 [⟨1, true⟩, ⟨2, false⟩]
        [] [] []).iter = none ∧
    (expire_passes 2 ⟨[⟨0, true⟩, ⟨1, true⟩, ⟨2, true⟩], 0, none⟩ 2).space = [] := by
  refine ⟨?_, ?_, ?_⟩
  · exact (mc_C3_sweep_bounded.2.1 50 [⟨1, true⟩, ⟨2, false⟩] 0
      [⟨1, true⟩, ⟨2, false⟩] (by decide)).1
  · exact (mc_C3_sweep_bounded.2.1 50 [⟨1, true⟩, ⟨2, false⟩] 0
      [⟨1, true⟩, ⟨2, false⟩] (by decide)).2
  · have h := mc_C3_sweep_bounded.2.2.2 2 [⟨0, true⟩, ⟨1, true⟩, ⟨2, true⟩] 0 none
      (by decide) (by decide) (Or.inl rfl)
    simpa using h

theorem skipGo_some_inv :
    ∀ (reads : List Int) (len : Nat) (buf : Ibuf) (acc : Nat)
      (l : Nat) (b : Ibuf) (a : Nat),
      skipGo true len buf acc reads = some (l, b, a) →
      len + ibuf_used b + acc = ibuf_used buf + a + l ∧
      l ≤ ibuf_used b ∧
      (buf.rpos ≤ buf.wpos → b.rpos ≤ b.wpos) := by
  intro reads
  induction reads with
  | nil =>
    intro len buf acc l b a h
    rw [skipGo] at h
    by_cases hc : ibuf_used buf < len
    · simp [hc] at h
    · simp [hc] at h
      obtain ⟨h1, h2, h3⟩ := h
      subst h1
      subst h2
      subst h3
      exact ⟨by omega, by omega, fun hw => hw⟩
  | cons r rs ih =>
    intro len buf acc l b a h
    rw [skipGo] at h
    by_cases hc : ibuf_used buf < len
    · by_cases hr : r < 1
      · simp [hc, hr] at h
      · simp [hc, hr] at h
        obtain ⟨h1, h2, h3⟩ := ih (len - ibuf_used buf) ⟨0, r.toNat⟩ (acc + r.toNat)
          l b a h
        refine ⟨?_, h2, fun _ => h3 (by simp)⟩
        simp only [ibuf_used] at h1 ⊢
        simp only [ibuf_used] at hc
        omega
    · simp [hc] at h
      obtain ⟨h1, h2, h3⟩ := h
      subst h1
      subst h2
      subst h3
      exact ⟨by omega, by omega, fun hw => hw⟩

/-- Claim C2 (amended): while the input buffer holds fewer bytes than
the request's declared total length (and the connection is flagged
noprocess), memcached_skip_request discards the buffered portion and
reads more; on success it has consumed exactly the declared length
from the stream (initial buffered bytes plus bytes read equals the
declared length plus the bytes left unconsumed) and the read cursor
stays within the buffer; if a drain read fails (or the stream ends) it
returns failure.  (The caller ignores that failure, see the
counterexample.) -/
theorem mc_C2_skip_drain :
    (∀ (len : Nat) (buf : Ibuf) (reads : List Int) (out : SkipOut),
      buf.rpos ≤ buf.wpos →
      memcached_skip_request true len buf reads = some out →
      ibuf_used buf + out.bytesRead = len + ibuf_used out.buf ∧
      out.buf.rpos ≤ out.buf.wpos) ∧
    (∀ (len : Nat) (buf : Ibuf) (r : Int) (rs : List Int),
      ibuf_used buf < len → r < 1 →
      memcached_skip_request true len buf (r :: rs) = none) ∧
    (∀ (len : Nat) (buf : Ibuf),
      ibuf_used buf < len →
      memcached_skip_request true len buf [] = none) := by
  refine ⟨?_, ?_, ?_⟩
  · intro len buf reads out hw h
    rw [memcached_skip_request] at h
    cases hsg : skipGo true len buf 0 reads with
    | none => rw [hsg] at h; exact absurd h (by simp)
    | some v =>
      obtain ⟨l, b, a⟩ := v
      rw [hsg] at h
      simp only [Option.some.injEq] at h
      subst h
      obtain ⟨h1, h2, h3⟩ := skipGo_some_inv reads len buf 0 l b a hsg
      have hbw := h3 hw
      constructor
      · show ibuf_used buf + a = len + ibuf_used ⟨b.rpos + l, b.wpos⟩
        simp only [ibuf_used] at h1 h2 ⊢
        omega
      · show b.rpos + l ≤ b.wpos
        simp only [ibuf_used] at h2
        omega
  · intro len buf r rs hc hr
    have hsg : skipGo true len buf 0 (r :: rs) = none := by
      rw [skipGo]
      simp [hc, hr]
    simp [memcached_skip_request, hsg]
  · intro len buf hc
    have hsg : skipGo true len buf 0 [] = none := by
      rw [skipGo]
      simp [hc]
    simp [memcached_skip_request, hsg]

/-- Witness for mc_C2_skip_drain: a request of declared length 10 with
3 bytes buffered; the drain discards them, reads 4 then 5 bytes, and
ends with the cursor 3 bytes into the last read: 3 + 9 = 10 + 2 bytes
accounted.  A drain whose first read returns 0 (EOF) fails. -/
theorem mc_C2_skip_drain_witness :
    memcached_skip_request true 10 ⟨0, 3⟩ [4, 5] = some ⟨⟨3, 5⟩, 9⟩ ∧
    (ibuf_used ⟨0, 3⟩ + 9 = 10 + ibuf_used ⟨3, 5⟩ ∧ (3 : Nat) ≤ 5) ∧
    memcached_skip_request true 10 ⟨0, 3⟩ [0] = none := by
  refine ⟨by decide, ?_, ?_⟩
  · exact mc_C2_skip_drain.1 10 ⟨0, 3⟩ [4, 5] ⟨⟨3, 5⟩, 9⟩ (by decide) (by decide)
  · exact mc_C2_skip_drain.2.1 10 ⟨0, 3⟩ 0 [] (by decide) (by decide)

/-- Counterexample to claim C2 as stated: a failed drain read is not
treated as a fatal read by memcached_loop — the skip return value is
discarded (lines 138 and 153), so after the drain failure the loop
still flushes and processes a further request before terminating. -/
theorem mc_C2_counterexample :
    (memcached_loop 1 10 [some 24, some 24] [cParseErrDrainFail, cReqDone]
        [] st0).1 =
      [Ev.readOk, Ev.skipFail, Ev.flush, Ev.readOk, Ev.req, Ev.flush,
       Ev.readFail, Ev.flush] ∧
    Ev.req ∈ (memcached_loop 1 10 [some 24, some 24] [cParseErrDrainFail, cReqDone]
        [] st0).1.dropWhile (fun e => e ≠ Ev.skipFail) := by
  decide

theorem chkSegs_readOk (cap r : Nat) (t : List Ev) :
    chkSegs cap r (Ev.readOk :: t) = chkSegs cap r t := rfl

theorem chkSegs_readFail (cap r : Nat) (t : List Ev) :
    chkSegs cap r (Ev.readFail :: t) = chkSegs cap r t := rfl

theorem chkSegs_skipFail (cap r : Nat) (t : List Ev) :
    chkSegs cap r (Ev.skipFail :: t) = chkSegs cap r t := rfl

theorem chkSegs_flush (cap r : Nat) (t : List Ev) :
    chkSegs cap r (Ev.flush :: t) = chkSegs cap cap t := rfl

theorem chkSegs_req (cap r : Nat) (t : List Ev) :
    chkSegs cap r (Ev.req :: t) = (decide (r ≠ 0) && chkSegs cap (r - 1) t) := rfl

theorem chkSegs_nil (cap r : Nat) : chkSegs cap r [] = true := rfl

theorem chkSegs_consSkip (ok : Bool) (cap r : Nat) (l : List Ev) :
    chkSegs cap r (consSkip ok l) = chkSegs cap r l := by
  cases ok with
  | false => simp [consSkip, chkSegs_skipFail]
  | true => simp [consSkip]

theorem chkSegs_mono :
    ∀ (l : List Ev) (cap r r' : Nat), r ≤ r' →
      chkSegs cap r l = true → chkSegs cap r' l = true := by
  intro l
  induction l with
  | nil =>
    intro cap r r' hle h
    rfl
  | cons e t ih =>
    intro cap r r' hle h
    cases e with
    | req =>
      rw [chkSegs_req] at h ⊢
      simp only [Bool.and_eq_true, decide_eq_true_eq] at h ⊢
      exact ⟨by omega, ih cap (r - 1) (r' - 1) (by omega) h.2⟩
    | flush =>
      rw [chkSegs_flush] at h ⊢
      exact h
    | readOk =>
      rw [chkSegs_readOk] at h ⊢
      exact ih cap r r' hle h
    | readFail =>
      rw [chkSegs_readFail] at h ⊢
      exact ih cap r r' hle h
    | skipFail =>
      rw [chkSegs_skipFail] at h ⊢
      exact ih cap r r' hle h

theorem headD_noreply (cycles : List CycleIn)
    (h : ∀ c ∈ cycles, c.noreply = false) :
    (cycles.headD defaultCycle).noreply = false := by
  cases cycles with
  | nil => rfl
  | cons c cs => exact h c (by simp)

theorem tail_noreply (cycles : List CycleIn)
    (h : ∀ c ∈ cycles, c.noreply = false) :
    ∀ c ∈ cycles.tail, c.noreply = false := by
  intro c hc
  exact h c (List.mem_of_mem_tail hc)

theorem memcached_loop_go_chkSegs :
    ∀ (fuel B batch : Nat) (atNext : Bool) (reads : List (Option Nat))
      (cycles : List CycleIn) (fl : List Nat) (st : Stat),
      (∀ c ∈ cycles, c.noreply = false) → batch ≤ B →
      chkSegs (B + 1) (B + 1 - batch)
        (memcached_loop_go B fuel batch atNext reads cycles fl st).1 = true := by
  intro fuel
  induction fuel with
  | zero =>
    intro B batch atNext reads cycles fl st hnr hb
    simp [memcached_loop_go, chkSegs]
  | succ f ih =>
    intro B batch atNext reads cycles fl st hnr hb
    have hnrh := headD_noreply cycles hnr
    have hnrt := tail_noreply cycles hnr
    simp only [memcached_loop_go]
    split
    · -- read step
      split
      · -- read failed: [readFail, flush]
        simp [chkSegs]
      · -- read delivered n bytes
        dsimp only
        rw [chkSegs_readOk]
        exact ih B batch true reads.tail cycles fl _ hnr hb
    · -- at label next
      split
      · -- parse error
        split
        · -- close_connection: break, final flush
          dsimp only
          rw [chkSegs_consSkip]
          simp [chkSegs]
        · -- report, drain, flush, continue
          dsimp only
          rw [chkSegs_consSkip, chkSegs_flush]
          exact chkSegs_mono _ (B + 1) (B + 1 - batch) (B + 1) (by omega)
            (ih B batch false reads cycles.tail fl.tail _ hnrt hb)
      · split
        · -- parse needs more bytes: read again
          exact ih B batch false reads cycles.tail fl st hnrt hb
        · -- complete request processed
          split
          · -- close_connection: break, final flush
            dsimp only
            rw [chkSegs_req, chkSegs_consSkip, chkSegs_flush]
            simp only [chkSegs_nil, Bool.and_eq_true, decide_eq_true_eq]
            exact ⟨by omega, trivial⟩
          · split
            · -- pipelined batching: goto next
              rename_i hcond
              dsimp only
              rw [chkSegs_req, chkSegs_consSkip]
              simp only [Bool.and_eq_true, decide_eq_true_eq]
              refine ⟨by omega, ?_⟩
              have heq2 : B + 1 - batch - 1 = B + 1 - (batch + 1) := by omega
              rw [heq2]
              exact ih B (batch + 1) true reads cycles.tail fl _ hnrt
                (by omega)
            · split
              · -- noreply: excluded by hypothesis
                rename_i hnrp
                rw [hnrh] at hnrp
                exact absurd hnrp (by decide)
              · -- flush and continue
                dsimp only
                rw [chkSegs_req, chkSegs_consSkip, chkSegs_flush]
                simp only [Bool.and_eq_true, decide_eq_true_eq]
                refine ⟨by omega, ?_⟩
                exact ih B 0 false reads cycles.tail fl.tail _ hnrt (by omega)

theorem checkAfterRF_readOk (t : List Ev) :
    checkAfterRF (Ev.readOk :: t) = checkAfterRF t := rfl

theorem checkAfterRF_req (t : List Ev) :
    checkAfterRF (Ev.req :: t) = checkAfterRF t := rfl

theorem checkAfterRF_skipFail (t : List Ev) :
    checkAfterRF (Ev.skipFail :: t) = checkAfterRF t := rfl

theorem checkAfterRF_flush (t : List Ev) :
    checkAfterRF (Ev.flush :: t) = checkAfterRF t := rfl

theorem checkAfterRF_consSkip (ok : Bool) (l : List Ev) :
    checkAfterRF (consSkip ok l) = checkAfterRF l := by
  cases ok with
  | false => simp [consSkip, checkAfterRF_skipFail]
  | true => simp [consSkip]

theorem memcached_loop_go_checkAfterRF :
    ∀ (fuel B batch : Nat) (atNext : Bool) (reads : List (Option Nat))
      (cycles : List CycleIn) (fl : List Nat) (st : Stat),
      checkAfterRF (memcached_loop_go B fuel batch atNext reads cycles fl st).1 =
        true := by
  intro fuel
  induction fuel with
  | zero =>
    intro B batch atNext reads cycles fl st
    simp [memcached_loop_go, checkAfterRF]
  | succ f ih =>
    intro B batch atNext reads cycles fl st
    simp only [memcached_loop_go]
    split
    · split
      · -- read failed: the trace ends [readFail, flush]
        simp [checkAfterRF]
      · dsimp only
        rw [checkAfterRF_readOk]
        exact ih B batch true reads.tail cycles fl _
    · split
      · split
        · dsimp only
          rw [checkAfterRF_consSkip, checkAfterRF_flush]
          rfl
        · dsimp only
          rw [checkAfterRF_consSkip, checkAfterRF_flush]
          exact ih B batch false reads cycles.tail fl.tail _
      · split
        · exact ih B batch false reads cycles.tail fl st
        · split
          · dsimp only
            rw [checkAfterRF_req, checkAfterRF_consSkip, checkAfterRF_flush]
            rfl
          · split
            · dsimp only
              rw [checkAfterRF_req, checkAfterRF_consSkip]
              exact ih B (batch + 1) true reads cycles.tail fl _
            · split
              · dsimp only
                rw [checkAfterRF_req, checkAfterRF_consSkip]
                exact ih B 0 false reads cycles.tail fl _
              · dsimp only
                rw [checkAfterRF_req, checkAfterRF_consSkip, checkAfterRF_flush]
                exact ih B 0 false reads cycles.tail fl.tail _

theorem memcached_loop_go_conns :
    ∀ (fuel B batch : Nat) (atNext : Bool) (reads : List (Option Nat))
      (cycles : List CycleIn) (fl : List Nat) (st : Stat),
      (memcached_loop_go B fuel batch atNext reads cycles fl st).2.curr_conns =
        st.curr_conns ∧
      (memcached_loop_go B fuel batch atNext reads cycles fl st).2.total_conns =
        st.total_conns := by
  intro fuel
  induction fuel with
  | zero =>
    intro B batch atNext reads cycles fl st
    simp [memcached_loop_go]
  | succ f ih =>
    intro B batch atNext reads cycles fl st
    simp only [memcached_loop_go]
    split
    · split
      · simp [addBW]
      · dsimp only
        rename_i n heq
        have h := ih B batch true reads.tail cycles fl (addBR st n)
        simpa [addBR] using h
    · split
      · split
        · simp [addBR, addBW]
        · dsimp only
          have h := ih B batch false reads cycles.tail fl.tail
            (addBW (addBR st (cycles.headD defaultCycle).skipBytes)
              (fl.headD 0))
          simpa [addBR, addBW] using h
      · split
        · exact ih B batch false reads cycles.tail fl st
        · split
          · simp [addBR, addBW]
          · split
            · dsimp only
              have h := ih B (batch + 1) true reads cycles.tail fl
                (addBR st (cycles.headD defaultCycle).skipBytes)
              simpa [addBR] using h
            · split
              · dsimp only
                have h := ih B 0 false reads cycles.tail fl
                  (addBR st (cycles.headD defaultCycle).skipBytes)
                simpa [addBR] using h
              · dsimp only
                have h := ih B 0 false reads cycles.tail fl.tail
                  (addBW (addBR st (cycles.headD defaultCycle).skipBytes)
                    (fl.headD 0))
                simpa [addBR, addBW] using h

/-- Claim C1 (amended): provided no request sets noreply (a noreply
request suppresses the flush while still resetting the batch
counter), the connection loop processes at most batch_count + 1
requests between two consecutive flushes: the batch counter is
incremented only while strictly below the configured limit, so one
request beyond the limit completes before the counter is reset and
the output is flushed.  (A parse error flushes without resetting the
counter, which only shortens subsequent batches.) -/
theorem mc_C1_batch_bound :
    ∀ (B fuel : Nat) (reads : List (Option Nat)) (cycles : List CycleIn)
      (fl : List Nat) (st : Stat),
      (∀ c ∈ cycles, c.noreply = false) →
      chkSegs (B + 1) (B + 1) (memcached_loop B fuel reads cycles fl st).1 =
        true := by
  intro B fuel reads cycles fl st h
  have hg := memcached_loop_go_chkSegs fuel B 0 false reads cycles fl st h
    (by omega)
  simpa [memcached_loop] using hg

/-- Witness for mc_C1_batch_bound: with batch_count 1 and two
pipelined requests, every inter-flush segment holds at most 2
requests. -/
theorem mc_C1_batch_bound_witness :
    chkSegs 2 2 (memcached_loop 1 10 [some 24] [cReqMore, cReqMore] [] st0).1 =
      true :=
  mc_C1_batch_bound 1 10 [some 24] [cReqMore, cReqMore] [] st0 (by decide)

/-- Counterexample to claim C1 as stated: with batch_count = 1, two
pipelined requests are both processed before the first flush (the
trace shows two req events before the flush), so the loop processes
more than batch_count requests between flushes. -/
theorem mc_C1_counterexample :
    (memcached_loop 1 10 [some 24] [cReqMore, cReqMore] [] st0).1 =
      [Ev.readOk, Ev.req, Ev.req, Ev.flush, Ev.readFail, Ev.flush] ∧
    chkSegs 1 1 (memcached_loop 1 10 [some 24] [cReqMore, cReqMore] [] st0).1 =
      false := by
  decide

/-- Claim C6: memcached_loop_read reports failure exactly when the
buffer reservation fails or the read delivers fewer bytes than
requested; and whenever a read fails, the connection loop emits
exactly one final flush of the already-staged output and terminates,
processing no further request and emitting no reply for the in-flight
request. -/
theorem mc_C6_fatal_read :
    (∀ (ok : Bool) (rd : Int) (n : Nat),
      memcached_loop_read_rc ok rd n = -1 ↔ (ok = false ∨ rd < (n : Int))) ∧
    (∀ (B fuel : Nat) (reads : List (Option Nat)) (cycles : List CycleIn)
       (fl : List Nat) (st : Stat),
      checkAfterRF (memcached_loop B fuel reads cycles fl st).1 = true) := by
  constructor
  · intro ok rd n
    cases ok with
    | false => simp [memcached_loop_read_rc]
    | true =>
      by_cases hrd : rd < (n : Int)
      · simp [memcached_loop_read_rc, hrd]
      · simp [memcached_loop_read_rc, hrd]
  · intro B fuel reads cycles fl st
    exact memcached_loop_go_checkAfterRF fuel B 0 false reads cycles fl st

/-- Claim C9: one invocation of the per-connection handler leaves
curr_conns unchanged on net (incremented on entry, decremented after
the loop returns) and increments total_conns exactly once, for every
possible behaviour of the loop (read failure, parse errors,
protocol-signalled close, any batching). -/
theorem mc_C9_conn_counters :
    ∀ (B fuel : Nat) (reads : List (Option Nat)) (cycles : List CycleIn)
      (fl : List Nat) (st : Stat),
      (memcached_handler B fuel reads cycles fl st).curr_conns =
        st.curr_conns ∧
      (memcached_handler B fuel reads cycles fl st).total_conns =
        st.total_conns + 1 := by
  intro B fuel reads cycles fl st
  have h := memcached_loop_go_conns fuel B 0 false reads cycles fl
    { st with curr_conns := st.curr_conns + 1,
              total_conns := st.total_conns + 1 }
  constructor
  · simp only [memcached_handler, memcached_loop] at h ⊢
    omega
  · simp only [memcached_handler, memcached_loop] at h ⊢
    omega
